import Mathlib

/-!
Verification of the go-restclient request pipeline.

This file gives a shallow embedding of the request assembly, execution and
response-classification code of the repository (package restclient) and
proves the spec claims about it.  Pure Go functions become Lean functions;
the fallible platform pieces (net/url parsing, the JSON codec, the network
transport) are passed in as explicit function parameters, so every theorem
quantifies over them; Go interface values built by errors.New and
errors.Wrap become the inductive type GoErr below.
-/

set_option autoImplicit false
set_option linter.unusedVariables false

namespace RestClient

/-- Go error values as produced by errors.New and errors.Wrap of
github.com/pkg/errors: a wrap keeps the cause and prefixes a message. -/
inductive GoErr where
  | new (msg : String)
  | wrap (inner : GoErr) (msg : String)
  deriving Repr, DecidableEq

/-- Result of the Error() method: errors.Wrap(e, m).Error() is m ++ ": " ++ e.Error(). -/
def GoErr.message : GoErr → String
  | .new m => m
  | .wrap inner m => m ++ ": " ++ inner.message

/- Named package-level error variables of errors.go. -/

def InvalidRequestErr : GoErr := .new "Invalid request error"

def InvalidResponseBodyErr : GoErr := .new "Invalid response body error"

def UnexpectedResponseCodeErr : GoErr := .new "Unexpected HTTP response code"

def HttpClientErr : GoErr := .new "Http client error"

def UnauthorizedErr : GoErr := .new "Unauthorized - Authentication failed"

def ForbiddenErr : GoErr := .new "Resource is forbidden, check your authentication token and permissions"

def RecordNotFoundErr : GoErr := .new "Resource is not found"

def ParseErr : GoErr := .new "Not well-formatted request or missing fields"

def TooManyRequestErr : GoErr := .new "Too many requests - Resource unavailable"

def UnprocessableEntityErr : GoErr := .new "Syntactically correct but semantically incorrect request"

def InternalServerErr : GoErr := .new "Internal server error"

def ServiceUnavailableErr : GoErr := .new "Service unavailable"

/-- The requestErrorImpl struct of errors.go: the one implementation of the
RequestError interface.  Unset Go struct fields default to zero values. -/
structure RequestErrorImpl where
  topLevelErr : GoErr
  err : GoErr
  statusCode : Nat := 0
  isTimeout : Bool := false
  isConnectionErr : Bool := false
  isResponseParseErr : Bool := false
  isRequestBuildErr : Bool := false
  deriving Repr, DecidableEq

namespace RequestErrorImpl

def GetTopLevelError (r : RequestErrorImpl) : GoErr := r.topLevelErr

def GetUnderlyingError (r : RequestErrorImpl) : GoErr := r.err

def GetTitle (r : RequestErrorImpl) : String := r.topLevelErr.message

def GetMessage (r : RequestErrorImpl) : String := r.err.message

def GetStatusCode (r : RequestErrorImpl) : Nat := r.statusCode

def Timeout (r : RequestErrorImpl) : Bool := r.isTimeout

def ConnectionError (r : RequestErrorImpl) : Bool := r.isConnectionErr

def ResponseParseError (r : RequestErrorImpl) : Bool := r.isResponseParseErr

def RequestBuildError (r : RequestErrorImpl) : Bool := r.isRequestBuildErr

end RequestErrorImpl

/-- http.StatusRequestTimeout. -/
def StatusRequestTimeout : Nat := 408

def NewRequestError (topLevelErr err : GoErr) (statusCode : Nat) : RequestErrorImpl :=
  { topLevelErr := topLevelErr, err := err, statusCode := statusCode }

def NewRequestTimeoutError (topLevelErr err : GoErr) : RequestErrorImpl :=
  { topLevelErr := topLevelErr, err := err, statusCode := StatusRequestTimeout,
    isTimeout := true, isConnectionErr := true }

def NewRequestConnectionError (topLevelErr err : GoErr) : RequestErrorImpl :=
  { topLevelErr := topLevelErr, err := err, isConnectionErr := true }

def NewRequestBuildError (topLevelErr err : GoErr) : RequestErrorImpl :=
  { topLevelErr := topLevelErr, err := err, isRequestBuildErr := true }

def NewRequestResponseParseError (topLevelErr err : GoErr) : RequestErrorImpl :=
  { topLevelErr := topLevelErr, err := err, isResponseParseErr := true }

instance {ε α : Type} [DecidableEq ε] [DecidableEq α] : DecidableEq (Except ε α)
  | .error a, .error b =>
      if h : a = b then .isTrue (by rw [h]) else .isFalse (by simp [h])
  | .error _, .ok _ => .isFalse (by simp)
  | .ok _, .error _ => .isFalse (by simp)
  | .ok a, .ok b =>
      if h : a = b then .isTrue (by rw [h]) else .isFalse (by simp [h])

/-- A received http.Response: the status code and the outcome of draining the
body stream with ioutil.ReadAll (reading may fail). -/
structure HttpResponse where
  statusCode : Nat
  body : Except GoErr String
  deriving Repr, DecidableEq

/-- getFailedResponseBody of the request file: read the whole body, wrapping
a read failure. -/
def getFailedResponseBody (response : HttpResponse) : Except GoErr String :=
  match response.body with
  | .error e => .error (GoErr.wrap e "Failed to convert response body to error")
  | .ok s => .ok s

/-- The status-code switch block of prepareResponseError picking the
top-level error variable (the default case is the switch default). -/
def statusTopLevelErr (code : Nat) : GoErr :=
  if code = 401 then UnauthorizedErr
  else if code = 403 then ForbiddenErr
  else if code = 404 then RecordNotFoundErr
  else if code = 400 then ParseErr
  else if code = 429 then TooManyRequestErr
  else if code = 422 then UnprocessableEntityErr
  else if code = 500 then InternalServerErr
  else if code = 503 then ServiceUnavailableErr
  else UnexpectedResponseCodeErr

/-- prepareResponseError of the request file: status below 400 is no error,
otherwise the fixed status-code switch picks the top-level error and the
literal body text becomes the detail message. -/
def prepareResponseError (response : HttpResponse) : Option RequestErrorImpl :=
  if response.statusCode < 400 then none
  else
    match getFailedResponseBody response with
    | .error e =>
        some (NewRequestResponseParseError InvalidResponseBodyErr
          (GoErr.wrap e "Failed to read response body"))
    | .ok responseMessage =>
        some (NewRequestError (statusTopLevelErr response.statusCode)
          (GoErr.new responseMessage) response.statusCode)

/-- The closed error taxonomy named by the specification for HTTP statuses. -/
inductive ErrCategory where
  | Unauthorized
  | Forbidden
  | NotFound
  | MalformedRequest
  | TooManyRequests
  | UnprocessableEntity
  | InternalServerError
  | ServiceUnavailable
  | UnexpectedStatus
  deriving Repr, DecidableEq

/-- The status-to-category mapping exactly as the specification words it. -/
def specStatusCategory (code : Nat) : ErrCategory :=
  if code = 401 then .Unauthorized
  else if code = 403 then .Forbidden
  else if code = 404 then .NotFound
  else if code = 400 then .MalformedRequest
  else if code = 429 then .TooManyRequests
  else if code = 422 then .UnprocessableEntity
  else if code = 500 then .InternalServerError
  else if code = 503 then .ServiceUnavailable
  else .UnexpectedStatus

/-- Which package-level error variable realises each spec category in the code. -/
def categoryTopErr : ErrCategory → GoErr
  | .Unauthorized => UnauthorizedErr
  | .Forbidden => ForbiddenErr
  | .NotFound => RecordNotFoundErr
  | .MalformedRequest => ParseErr
  | .TooManyRequests => TooManyRequestErr
  | .UnprocessableEntity => UnprocessableEntityErr
  | .InternalServerError => InternalServerErr
  | .ServiceUnavailable => ServiceUnavailableErr
  | .UnexpectedStatus => UnexpectedResponseCodeErr

/-! Header model.  http.Header is a map from (canonical) key to an ordered
list of values; we model it as an association list with unique keys, keys
taken in canonical form (http.Header treats keys up to MIME canonicalisation,
and every key the repository touches is already canonical). -/

/-- Association list from header key to ordered value list; also the shape of
url.Values for query parameters. -/
abbrev Header := List (String × List String)

/-- Ordered values stored under a key (http.Header lookup, first matching
entry). -/
def headerValues : Header → String → List String
  | [], _ => []
  | (k, vs) :: rest, key => if k = key then vs else headerValues rest key

/-- http.Header.Get: the first value under the key, or the empty string. -/
def headerGet (h : Header) (key : String) : String :=
  match headerValues h key with
  | [] => ""
  | v :: _ => v

/-- http.Header.Add: append one value under the key, keeping everything else. -/
def headerAdd : Header → String → String → Header
  | [], key, v => [(key, [v])]
  | (k, vs) :: rest, key, v =>
      if k = key then (k, vs ++ [v]) :: rest else (k, vs) :: headerAdd rest key v

/-- http.Header.Set: replace the values under the key with the single value. -/
def headerSet : Header → String → String → Header
  | [], key, v => [(key, [v])]
  | (k, vs) :: rest, key, v =>
      if k = key then (k, [v]) :: rest else (k, vs) :: headerSet rest key v

/-- Append each element of a value list under a key, in order. -/
def headerAddAll (h : Header) (key : String) (value : List String) : Header :=
  value.foldl (fun acc v => headerAdd acc key v) h

/-- The setHeaderIfExists closure of HttpRequestBuilder.Build: skip empty keys
and empty value lists, otherwise Add every value in order. -/
def setHeaderIfExists (h : Header) (key : String) (value : List String) : Header :=
  if key ≠ "" ∧ value ≠ [] then headerAddAll h key value else h

/-- The custom-header loop of HttpRequestBuilder.Build (Go map iteration
order is unspecified; the list fixes one order, and the theorems quantify
over it). -/
def applyCustomHeaders (h : Header) (m : Header) : Header :=
  m.foldl (fun acc p => setHeaderIfExists acc p.1 p.2) h

/-! URL escaping, translated byte for byte from net/url escape with modes
encodePathSegment (url.PathEscape) and encodeQueryComponent (url.QueryEscape).
Strings are processed as their UTF-8 bytes, as in Go. -/

/-- UTF-8 encoding of one code point, as a list of byte values. -/
def charUtf8Bytes (c : Char) : List Nat :=
  let n := c.toNat
  if n < 128 then [n]
  else if n < 2048 then [192 + n / 64, 128 + n % 64]
  else if n < 65536 then [224 + n / 4096, 128 + n / 64 % 64, 128 + n % 64]
  else [240 + n / 262144, 128 + n / 4096 % 64, 128 + n / 64 % 64, 128 + n % 64]

/-- UTF-8 bytes of a string. -/
def utf8Bytes (s : String) : List Nat :=
  s.data.flatMap charUtf8Bytes

/-- ASCII letter or digit. -/
def isAlphaNumByte (b : Nat) : Bool :=
  (97 ≤ b && b ≤ 122) || (65 ≤ b && b ≤ 90) || (48 ≤ b && b ≤ 57)

/-- net/url shouldEscape for mode encodePathSegment: keep alphanumerics, the
unreserved marks, and the reserved characters that are safe inside one path
segment; escape the slash, semicolon, comma and question mark and everything
else. -/
def shouldEscapePathSegmentByte (b : Nat) : Bool :=
  if isAlphaNumByte b then false
  else if b = 45 || b = 95 || b = 46 || b = 126 then false
  else if b = 36 || b = 38 || b = 43 || b = 58 || b = 61 || b = 64 then false
  else true

/-- net/url shouldEscape for mode encodeQueryComponent: only alphanumerics
and the unreserved marks survive (the space becomes a plus sign). -/
def shouldEscapeQueryByte (b : Nat) : Bool :=
  if isAlphaNumByte b then false
  else if b = 45 || b = 95 || b = 46 || b = 126 then false
  else true

/-- Uppercase hexadecimal digit. -/
def hexDigitUpper (n : Nat) : Char :=
  if n < 10 then Char.ofNat (48 + n) else Char.ofNat (55 + n)

/-- Lowercase hexadecimal digit. -/
def hexDigitLower (n : Nat) : Char :=
  if n < 10 then Char.ofNat (48 + n) else Char.ofNat (87 + n)

/-- Percent-encoding of one byte, uppercase hex as in net/url. -/
def percentByte (b : Nat) : String :=
  String.mk [Char.ofNat 37, hexDigitUpper (b / 16), hexDigitUpper (b % 16)]

/-- url.PathEscape: escape a string so it can be placed inside a URL path
segment. -/
def pathEscape (s : String) : String :=
  String.join ((utf8Bytes s).map fun b =>
    if shouldEscapePathSegmentByte b then percentByte b
    else String.mk [Char.ofNat b])

/-- url.QueryEscape: escape a string so it can be placed inside a URL query. -/
def queryEscape (s : String) : String :=
  String.join ((utf8Bytes s).map fun b =>
    if b = 32 then "+"
    else if shouldEscapeQueryByte b then percentByte b
    else String.mk [Char.ofNat b])

/-! A model of fmt.Sprintf over string operands, translated from the verb
scanning loop of fmt (doPrintf and the string formatting routines).  The
format strings buildEndpoint constructs consist of escaped components plus
the literal /%s directives, so a percent sign can only be followed by hex
escape digits, safe literal characters, or the s directive: explicit
argument indexes and star widths cannot occur in them and are not modelled.
The verbs are rendered as fmt does for a string operand: s and v print it,
x and X hex-encode its bytes, q quotes it (Go syntax, exact on ASCII,
printable treatment assumed for other code points), T prints its type
name, percent emits itself, and every other verb prints the bad-verb
notation; a verb without a remaining operand prints the missing-operand
notation, a format ending inside a directive prints the no-verb notation,
and leftover operands are reported in the trailing extra section. -/

/-- The flag, width and precision state of one parsed directive. -/
structure FmtSpec where
  sharp : Bool := false
  zero : Bool := false
  plus : Bool := false
  minus : Bool := false
  space : Bool := false
  wid : Option Nat := none
  prec : Option Nat := none
  deriving Repr, DecidableEq

/-- Pad a rune sequence to the directive width: spaces (zeros under the zero
flag) on the left, or on the right under the minus flag. -/
def padList (f : FmtSpec) (cs : List Char) : List Char :=
  match f.wid with
  | none => cs
  | some w =>
      if w ≤ cs.length then cs
      else
        let padding := List.replicate (w - cs.length) (if f.zero then '0' else ' ')
        if f.minus then cs ++ padding else padding ++ cs

/-- Truncate a string to the directive precision, counted in runes. -/
def truncateString (f : FmtSpec) (s : String) : String :=
  match f.prec with
  | some p => String.mk (s.data.take p)
  | none => s

/-- The s and v directives on a string operand: truncate, then pad. -/
def fmtS (f : FmtSpec) (s : String) : List Char :=
  padList f (truncateString f s).data

/-- The x and X directives on a string operand: truncate its bytes to the
precision, hex-encode them, then pad. -/
def fmtSx (upper : Bool) (f : FmtSpec) (s : String) : List Char :=
  let bytes :=
    match f.prec with
    | some p => (utf8Bytes s).take p
    | none => utf8Bytes s
  let dig := fun n => if upper then hexDigitUpper n else hexDigitLower n
  padList f (bytes.flatMap fun b => [dig (b / 16), dig (b % 16)])

/-- Go syntax escaping of one character inside a quoted string. -/
def goQuoteChar (c : Char) : List Char :=
  if c = '"' then ['\\', '"']
  else if c = '\\' then ['\\', '\\']
  else if c.toNat = 7 then ['\\', 'a']
  else if c.toNat = 8 then ['\\', 'b']
  else if c.toNat = 12 then ['\\', 'f']
  else if c.toNat = 10 then ['\\', 'n']
  else if c.toNat = 13 then ['\\', 'r']
  else if c.toNat = 9 then ['\\', 't']
  else if c.toNat = 11 then ['\\', 'v']
  else if c.toNat < 32 ∨ c.toNat = 127 then
    ['\\', 'x', hexDigitLower (c.toNat / 16), hexDigitLower (c.toNat % 16)]
  else [c]

/-- The q directive body: the operand in Go quoted syntax. -/
def goQuote (s : String) : List Char :=
  '"' :: (s.data.flatMap goQuoteChar ++ ['"'])

/-- Output of one parsed directive applied to the remaining operands:
the produced characters and the operands left over. -/
def verbOut (f : FmtSpec) (c : Char) (args : List String) :
    List Char × List String :=
  if c = '%' then (['%'], args)
  else
    match args with
    | [] => ('%' :: '!' :: c :: "(MISSING)".data, [])
    | a :: rest =>
        if c = 's' then (fmtS f a, rest)
        else if c = 'v' then
          (if f.sharp then padList f (goQuote (truncateString f a)) else fmtS f a,
            rest)
        else if c = 'x' then (fmtSx false f a, rest)
        else if c = 'X' then (fmtSx true f a, rest)
        else if c = 'q' then (padList f (goQuote (truncateString f a)), rest)
        else if c = 'T' then (fmtS f "string", rest)
        else ('%' :: '!' :: c :: ('(' :: "string=".data ++ fmtS f a ++ [')']), rest)

/-- The trailing report of unconsumed operands. -/
def goExtra (args : List String) : List Char :=
  match args with
  | [] => []
  | _ =>
      "%!(EXTRA ".data
        ++ List.intercalate ", ".data (args.map fun a => "string=".data ++ a.data)
        ++ [')']

/-- The scanner position inside a format string. -/
inductive ScanState where
  | literal
  | flagScan (f : FmtSpec)
  | widthScan (f : FmtSpec)
  | precScan (f : FmtSpec)
  deriving Repr

/-- The format scanning loop of fmt: copy literal text, and at each percent
sign parse flags, a width, a precision and the verb.  A directive still open
when the format ends yields the no-verb notation; a width or precision that
grows beyond the fmt bound abandons the rest of the format the same way. -/
def goScan : ScanState → List Char → List String → List Char
  | .literal, [], args => goExtra args
  | .literal, c :: rest, args =>
      if c = '%' then goScan (.flagScan {}) rest args
      else c :: goScan .literal rest args
  | .flagScan _, [], args => "%!(NOVERB)".data ++ goExtra args
  | .flagScan f, c :: rest, args =>
      if c = '#' then goScan (.flagScan { f with sharp := true }) rest args
      else if c = '0' then goScan (.flagScan { f with zero := true }) rest args
      else if c = '+' then goScan (.flagScan { f with plus := true }) rest args
      else if c = '-' then goScan (.flagScan { f with minus := true }) rest args
      else if c = ' ' then goScan (.flagScan { f with space := true }) rest args
      else if c.isDigit then
        goScan (.widthScan { f with wid := some (c.toNat - 48) }) rest args
      else if c = '.' ∧ rest ≠ [] then
        goScan (.precScan { f with prec := some 0 }) rest args
      else
        match verbOut f c args with
        | (out, args2) => out ++ goScan .literal rest args2
  | .widthScan _, [], args => "%!(NOVERB)".data ++ goExtra args
  | .widthScan f, c :: rest, args =>
      if c.isDigit then
        if 1000000 < f.wid.getD 0 then "%!(NOVERB)".data ++ goExtra args
        else
          goScan (.widthScan
            { f with wid := some (f.wid.getD 0 * 10 + (c.toNat - 48)) }) rest args
      else if c = '.' ∧ rest ≠ [] then
        goScan (.precScan { f with prec := some 0 }) rest args
      else
        match verbOut f c args with
        | (out, args2) => out ++ goScan .literal rest args2
  | .precScan _, [], args => "%!(NOVERB)".data ++ goExtra args
  | .precScan f, c :: rest, args =>
      if c.isDigit then
        if 1000000 < f.prec.getD 0 then "%!(NOVERB)".data ++ goExtra args
        else
          goScan (.precScan
            { f with prec := some (f.prec.getD 0 * 10 + (c.toNat - 48)) }) rest args
      else
        match verbOut f c args with
        | (out, args2) => out ++ goScan .literal rest args2

/-- fmt.Sprintf over string operands. -/
def goSprintf (format : String) (args : List String) : String :=
  String.mk (goScan .literal format.data args)

/-- buildEndpoint of builder.go: the percent-escaped scheme and host are
written into the Sprintf FORMAT string, one /%s directive is appended per
path element, and the escaped path elements are passed as the operands.
Any percent sign the escaping itself produced therefore stands in verb
position and is interpreted by Sprintf. -/
def buildEndpoint (scheme host : String) (pathElements : List String) : String :=
  let escapedSchemeHost := pathEscape scheme ++ "://" ++ pathEscape host
  let urlFormat := pathElements.foldl (fun acc _ => acc ++ "/%s") escapedSchemeHost
  goSprintf urlFormat (pathElements.map pathEscape)

/-- Concatenation of a list of strings, in order. -/
def concatAll : List String → String
  | [] => ""
  | x :: xs => x ++ concatAll xs

/-- Endpoint construction exactly as the specification words it: scheme and
host percent-escaped as path components, each path segment independently
percent-escaped, joined with slash separators. -/
def specEndpoint (scheme host : String) (pathElements : List String) : String :=
  pathEscape scheme ++ "://" ++ pathEscape host
    ++ concatAll (pathElements.map fun e => "/" ++ pathEscape e)

/-- Insert a string into an already sorted list (ordering of Go sort.Strings). -/
def insertSorted (k : String) : List String → List String
  | [] => [k]
  | x :: xs => if k ≤ x then k :: x :: xs else x :: insertSorted k xs

/-- Sort strings ascending, as url.Values.Encode sorts its keys. -/
def sortStrings (l : List String) : List String :=
  l.foldr insertSorted []

/-- url.Values.Encode: keys sorted, every key and value query-escaped, pairs
joined by ampersands, values of one key kept in original order. -/
def urlValuesEncode (v : Header) : String :=
  let ks := sortStrings (v.map Prod.fst)
  let parts := ks.foldl (fun acc k =>
    acc ++ (headerValues v k).map fun w => queryEscape k ++ "=" ++ queryEscape w) []
  String.intercalate "&" parts

/-! Request model and the builder Build pipeline. -/

/-- The caller-supplied decode target of a response (the respRef interface
value): either a variable declared as a raw byte slice, or a structured
JSON target (its decoded content, when present, abstracted to a string). -/
inductive Target where
  | byteSlice (content : String)
  | jsonRef (value : Option String)
  deriving Repr, DecidableEq

/-- The Go %T type name of a target, used in the decode failure message. -/
def targetTypeName : Target → String
  | .byteSlice _ => "[]uint8"
  | .jsonRef _ => "*restclient.jsonValue"

/-- The transport-level http.Request as the pipeline sees it: method, the
parsed URL components, the raw query, headers, the body stream content, the
close flag and the context deadline (a pending context.WithTimeout bound). -/
structure GoRequest where
  method : String := ""
  scheme : String := ""
  host : String := ""
  urlPath : String := ""
  rawQuery : String := ""
  header : Header := []
  body : Option String := none
  close : Bool := false
  ctxDeadline : Option Int := none
  deriving Repr, DecidableEq

/-- URL.String() of a request whose URL was parsed from scheme://host/path:
components re-joined, with the raw query appended when non-empty. -/
def urlString (r : GoRequest) : String :=
  r.scheme ++ "://" ++ r.host ++ r.urlPath
    ++ (if r.rawQuery = "" then "" else "?" ++ r.rawQuery)

/-- Outcome of an Authenticator.Apply call: the possibly mutated request, or
a failure. -/
abbrev GoAuth := GoRequest → Except GoErr GoRequest

/-- Components net/url recovers from an absolute URL string. -/
structure ParsedURL where
  scheme : String := ""
  host : String := ""
  path : String := ""
  deriving Repr, DecidableEq

/-- Shape of the platform URL parser used by http.NewRequest: it either
yields the parsed components or fails. -/
abbrev ParseURLFn := String → Except GoErr ParsedURL

/-- Shape of url.ParseRequestURI as Build uses it: validate a path, yielding
unit or a failure. -/
abbrev ParseRequestURIFn := String → Except GoErr Unit

/-- The internal requestInfo struct of builder.go. -/
structure RequestInfo where
  scheme : String := ""
  host : String := ""
  pathElements : List String := []
  header : Option Header := none
  body : Option String := none
  queryParams : Option Header := none

/-- The exported HttpRequest struct: the built transport request plus the
execution configuration. -/
structure HttpRequest where
  request : Option GoRequest := none
  auth : Option GoAuth := none
  respReference : Option Target := none
  timeout : Int := 0
  loggingEnabled : Bool := false

/-- The HttpRequestBuilder struct. -/
structure HttpRequestBuilder where
  hr : HttpRequest := {}
  ri : RequestInfo := {}

/-- The default timeout (60 seconds, in nanoseconds as time.Duration). -/
def defaultTimeoutDuration : Int := 60 * 1000000000

/-- RequestBuilder(): the fresh builder with its defaults. -/
def RequestBuilder : HttpRequestBuilder :=
  { hr := { timeout := defaultTimeoutDuration, loggingEnabled := false }, ri := {} }

/-- validateRequiredRequestFields of builder.go: scheme then host must be
non-empty. -/
def validateRequiredRequestFields (ri : RequestInfo) : Option GoErr :=
  if ri.scheme = "" then some (GoErr.new "Empty request scheme")
  else if ri.host = "" then some (GoErr.new "Empty request host")
  else none

/-- First phase of Build: when no pre-prepared request exists, validate the
fields, build the escaped endpoint and construct the transport request (the
fresh request carries an empty header and the supplied body); when a
pre-prepared request exists and a body was supplied, replace its body. -/
def buildStep1 (parseURL : ParseURLFn) (hrb : HttpRequestBuilder) :
    Except RequestErrorImpl GoRequest :=
  match hrb.hr.request with
  | none =>
      match validateRequiredRequestFields hrb.ri with
      | some e =>
          .error (NewRequestBuildError InvalidRequestErr
            (GoErr.wrap e "Invalid request fields"))
      | none =>
          match parseURL (buildEndpoint hrb.ri.scheme hrb.ri.host hrb.ri.pathElements) with
          | .error e =>
              .error (NewRequestBuildError InvalidRequestErr
                (GoErr.wrap e "Failed to construct http.Request"))
          | .ok p =>
              .ok { scheme := p.scheme, host := p.host, urlPath := p.path,
                    header := [], body := hrb.ri.body }
  | some req =>
      match hrb.ri.body with
      | some b => .ok { req with body := some b }
      | none => .ok req

/-- Tail of Build after validation: encode the query parameters over the
request (overwriting its raw query) and apply the custom headers by
appending. -/
def buildFinish (hrb : HttpRequestBuilder) (req1 : GoRequest) : HttpRequest :=
  let req2 :=
    match hrb.ri.queryParams with
    | some qp => { req1 with rawQuery := urlValuesEncode qp }
    | none => req1
  let req3 :=
    { req2 with
      header := applyCustomHeaders req2.header
        (match hrb.ri.header with | some m => m | none => []) }
  { hrb.hr with request := some req3 }

/-- HttpRequestBuilder.Build: construct or extend the transport request, mark
it for connection closure, validate the resulting URL path when path elements
were supplied, then set query parameters and custom headers.  No network call
happens anywhere in this pipeline. -/
def build (parseURL : ParseURLFn) (parseRequestURI : ParseRequestURIFn)
    (hrb : HttpRequestBuilder) : Except RequestErrorImpl HttpRequest :=
  match buildStep1 parseURL hrb with
  | .error e => .error e
  | .ok req0 =>
      if hrb.ri.pathElements = [] then
        .ok (buildFinish hrb { req0 with close := true })
      else
        match parseRequestURI (GoRequest.urlPath { req0 with close := true }) with
        | .error e =>
            .error (NewRequestBuildError InvalidRequestErr
              (GoErr.wrap e "Invalid Request URI"))
        | .ok _ => .ok (buildFinish hrb { req0 with close := true })

/-- The header of the underlying request before Build applies the custom
headers: that of the pre-prepared request, or empty for a fresh one. -/
def baseHeader (hrb : HttpRequestBuilder) : Header :=
  match hrb.hr.request with
  | some q => q.header
  | none => []

/-- Split a character list at the first occurrence of a character: the part
before it and the rest starting with it (or empty). -/
def takeUntilChar (c : Char) : List Char → (List Char × List Char)
  | [] => ([], [])
  | x :: xs =>
      if x = c then ([], x :: xs)
      else
        match takeUntilChar c xs with
        | (a, b) => (x :: a, b)

/-- A concrete stand-in for the platform URL parser, good for the well-formed
URLs of the scenarios: split scheme://host/path back apart. -/
def simpleParseURL (s : String) : Except GoErr ParsedURL :=
  match takeUntilChar ':' s.data with
  | (sch, rest) =>
      match rest with
      | ':' :: '/' :: '/' :: rest2 =>
          match takeUntilChar '/' rest2 with
          | (host, pathRest) =>
              .ok { scheme := String.mk sch, host := String.mk host,
                    path := String.mk pathRest }
      | _ => .error (GoErr.new "missing protocol scheme")

/-- A concrete stand-in for url.ParseRequestURI on plain absolute paths. -/
def simpleParseRequestURI (s : String) : Except GoErr Unit :=
  if s = "" then .error (GoErr.new "empty uri") else .ok ()

/-! Body codec. -/

/-- Shape of json.Unmarshal as the codec uses it on a structured target: the
buffered text decodes to a value or fails. -/
abbrev JsonUnmarshalFn := String → Except GoErr String

/-- unmarshalReader of the request file.  The first input models the result of
draining the reader with ioutil.ReadAll.  The second component of the result
is the caller-visible target afterwards: Go passes the interface value v by
value, so the branch for a byte-slice target, which executes the assignment
v = toByte, rebinds the local parameter only and leaves the caller-visible
target unchanged. -/
def unmarshalReader (ju : JsonUnmarshalFn) (r : Except GoErr String)
    (v : Target) : Option GoErr × Target :=
  match r with
  | .error e => (some (GoErr.wrap e "Failed to read body"), v)
  | .ok toByte =>
      match v with
      | .jsonRef _ =>
          match ju toByte with
          | .error e => (some (GoErr.wrap e "Failed unmarshal body"), v)
          | .ok decoded => (none, .jsonRef (some decoded))
      | .byteSlice content => (none, .byteSlice content)

/-- unmarshalResponseBody: the codec applied to the response body stream. -/
def unmarshalResponseBody (ju : JsonUnmarshalFn) (response : HttpResponse)
    (v : Target) : Option GoErr × Target :=
  unmarshalReader ju response.body v

/-! The two client constructors.  http.Client.Timeout zero means no ambient
timeout in Go, so the constructors are only equal on positive and negative
inputs: newHttpClient defaults only below zero. -/

/-- The http.Client as the pipeline sees it: just its Timeout field. -/
structure GoHttpClient where
  clientTimeout : Int
  deriving Repr, DecidableEq

/-- newHttpClient of the request file: the default replaces a negative
timeout; a zero timeout is kept (no client timeout). -/
def newHttpClient (timeout : Int) : GoHttpClient :=
  { clientTimeout := if timeout < 0 then defaultTimeoutDuration else timeout }

/-- DefaultTimeoutDuration of the v1 client file. -/
def DefaultTimeoutDuration : Int := 60 * 1000000000

/-- The v1 HttpClient struct: the configured transport client plus the raw
constructor arguments it retains. -/
structure HttpClient where
  client : GoHttpClient
  loggingEnabled : Bool
  timeout : Int
  deriving Repr, DecidableEq

/-- NewHttpClient of the v1 client file: the default replaces a zero or
negative timeout on the inner http.Client, while the raw value is stored on
the HttpClient itself. -/
def NewHttpClient (loggingEnabled : Bool) (timeout : Int) : HttpClient :=
  { client := { clientTimeout := if timeout ≤ 0 then DefaultTimeoutDuration else timeout },
    loggingEnabled := loggingEnabled, timeout := timeout }

/-! Execution pipelines. -/

/-- setHeaderIfNotSetAlready closure shared by both pipelines. -/
def setHeaderIfNotSetAlready (req : GoRequest) (key value : String) : GoRequest :=
  if headerGet req.header key = "" ∧ value ≠ "" then
    { req with header := headerSet req.header key value }
  else req

/-- The universal-header and method block shared by both pipelines: force the
Accept header, assign the method, and force Content-Type on the body-bearing
verbs. -/
def applyUniversalHeaders (req : GoRequest) (method : String) : GoRequest :=
  let req := setHeaderIfNotSetAlready req "Accept" "application/json"
  let req := { req with method := method }
  if method = "PUT" ∨ method = "PATCH" ∨ method = "POST" then
    setHeaderIfNotSetAlready req "Content-Type" "application/json"
  else req

/-- Apply an optional authenticator (a nil authenticator is skipped). -/
def applyAuth : Option GoAuth → GoRequest → Except GoErr GoRequest
  | none, req => .ok req
  | some a, req => a req

/-- The dynamic type of the error value an http.Client.Do call returned: a
*url.Error (as the client documents for its failures) carrying its Timeout()
answer, or an error of any other dynamic type. -/
inductive TransportError where
  | urlErr (isTimeout : Bool) (e : GoErr)
  | otherErr (e : GoErr)
  deriving Repr, DecidableEq

/-- Shape of one http.Client.Do exchange: given the configured client and the
prepared request, either a response arrives or the call fails. -/
abbrev TransportFn := GoHttpClient → GoRequest → Except TransportError HttpResponse

/-- Result of one doRequest run.  The transport-failure branch runs the
dynamic type assertion err.(*url.Error), which panics when the error has any
other dynamic type, so a panic is a possible outcome. -/
inductive DoOutcome where
  | panicked
  | result (r : Option RequestErrorImpl)
  deriving Repr, DecidableEq

/-- doRequest of the request file, over an explicit transport.  The deferred
body close cannot change the returned value (the return value of doRequest is
not a named result), so closing is not modelled.  Logging is output-only and
not modelled. -/
def doRequest (transport : TransportFn) (ju : JsonUnmarshalFn)
    (req : GoRequest) (method : String) (auth : Option GoAuth)
    (respRef : Option Target) (loggingEnabled : Bool) (timeout : Int) :
    DoOutcome :=
  let req := applyUniversalHeaders req method
  match applyAuth auth req with
  | .error e =>
      .result (some (NewRequestBuildError InvalidRequestErr
        (GoErr.wrap e "cannot apply authentication information to request")))
  | .ok req =>
      let httpClient := newHttpClient timeout
      match transport httpClient req with
      | .error te =>
          match te with
          | .urlErr isTimeout e =>
              if isTimeout then
                .result (some (NewRequestTimeoutError HttpClientErr
                  (GoErr.wrap e "Connection Error, Request Timed out")))
              else
                .result (some (NewRequestConnectionError HttpClientErr
                  (GoErr.wrap e "Connection Error")))
          | .otherErr _ => .panicked
      | .ok resp =>
          match prepareResponseError resp with
          | some reqErr => .result (some reqErr)
          | none =>
              match respRef with
              | none => .result none
              | some target =>
                  match unmarshalResponseBody ju resp target with
                  | (some e, _) =>
                      .result (some (NewRequestResponseParseError InvalidRequestErr
                        (GoErr.wrap e
                          ("Failed to decode response body into given responseRef "
                            ++ targetTypeName target ++ " variable"))))
                  | (none, _) => .result none

/-- The part of HttpClient.do of the v1 client file that runs before the
hc.client.Do call: universal headers, method, authenticator, and the
timeout resolution block, which derives a context deadline exactly when the
supplied per-call timeout is positive and either no client-level timeout is
in force or the supplied one is strictly smaller. -/
def HttpClient.doPrepare (hc : HttpClient) (req : GoRequest) (method : String)
    (auth : Option GoAuth) (timeout : Int) : Except GoErr GoRequest :=
  let req := applyUniversalHeaders req method
  match applyAuth auth req with
  | .error e =>
      .error (GoErr.wrap e "cannot apply authentication information to request")
  | .ok req =>
      .ok (if 0 < timeout then
             if hc.timeout ≤ 0 ∨ timeout < hc.timeout then
               { req with ctxDeadline := some timeout }
             else req
           else req)

/-- HttpClient.do of the v1 client file, up to response classification: the
prepared request is the one handed to hc.client.Do. -/
def HttpClient.doCall (hc : HttpClient) (transport : TransportFn)
    (req : GoRequest) (method : String) (auth : Option GoAuth)
    (timeout : Int) : Except GoErr (GoRequest × HttpResponse) :=
  match hc.doPrepare req method auth timeout with
  | .error e => .error e
  | .ok r =>
      match transport hc.client r with
      | .error te =>
          match te with
          | .urlErr _ e => .error (GoErr.wrap e "Connection Error")
          | .otherErr e => .error (GoErr.wrap e "Connection Error")
      | .ok resp => .ok (r, resp)

/-! Lemmas about the header operations. -/

theorem headerValues_headerAdd (h : Header) (k k' v : String) :
    headerValues (headerAdd h k v) k' =
      headerValues h k' ++ (if k = k' then [v] else []) := by
  induction h with
  | nil =>
      simp only [headerAdd, headerValues]
      split_ifs <;> simp_all [headerValues]
  | cons p rest ih =>
      obtain ⟨k1, vs⟩ := p
      simp only [headerAdd, headerValues]
      split_ifs with h1 h2 h3 <;> simp_all [headerValues]

theorem headerValues_headerAddAll (h : Header) (k k' : String) (value : List String) :
    headerValues (headerAddAll h k value) k' =
      headerValues h k' ++ (if k = k' then value else []) := by
  induction value generalizing h with
  | nil => simp [headerAddAll]
  | cons v vs ih =>
      simp only [headerAddAll, List.foldl_cons] at *
      rw [ih (headerAdd h k v), headerValues_headerAdd]
      split_ifs <;> simp

theorem headerValues_setHeaderIfExists (h : Header) (k k' : String) (value : List String) :
    headerValues (setHeaderIfExists h k value) k' =
      headerValues h k'
        ++ (if k ≠ "" ∧ value ≠ [] ∧ k = k' then value else []) := by
  by_cases hc : k ≠ "" ∧ value ≠ []
  · rw [setHeaderIfExists, if_pos hc, headerValues_headerAddAll]
    by_cases hkk : k = k'
    · subst hkk
      simp [hc.1, hc.2]
    · simp [hkk]
  · rw [setHeaderIfExists, if_neg hc]
    have hneg : ¬ (k ≠ "" ∧ value ≠ [] ∧ k = k') := fun hx => hc ⟨hx.1, hx.2.1⟩
    simp [hneg]

theorem applyCustomHeaders_nil (h : Header) : applyCustomHeaders h [] = h := rfl

theorem applyCustomHeaders_cons (h : Header) (p : String × List String)
    (ps : Header) :
    applyCustomHeaders h (p :: ps) =
      applyCustomHeaders (setHeaderIfExists h p.1 p.2) ps := rfl

theorem applyCustomHeaders_prefix (m : Header) (h : Header) (k' : String) :
    headerValues h k' <+: headerValues (applyCustomHeaders h m) k' := by
  induction m generalizing h with
  | nil => simp [applyCustomHeaders_nil]
  | cons p ps ih =>
      rw [applyCustomHeaders_cons]
      refine List.IsPrefix.trans ?_ (ih (setHeaderIfExists h p.1 p.2))
      rw [headerValues_setHeaderIfExists]
      exact List.prefix_append _ _

theorem applyCustomHeaders_ne_keys (m : Header) (h : Header) (k : String)
    (hne : ∀ p ∈ m, p.1 ≠ k) :
    headerValues (applyCustomHeaders h m) k = headerValues h k := by
  induction m generalizing h with
  | nil => simp [applyCustomHeaders_nil]
  | cons p ps ih =>
      rw [applyCustomHeaders_cons,
        ih (setHeaderIfExists h p.1 p.2) (fun q hq => hne q (by simp [hq])),
        headerValues_setHeaderIfExists]
      have hneg : ¬ (p.1 ≠ "" ∧ p.2 ≠ [] ∧ p.1 = k) := by
        intro hc
        exact hne p (by simp) hc.2.2
      simp [hneg]

theorem applyCustomHeaders_values_unique (m : Header) (h : Header) (k : String)
    (vs : List String) (hnd : (m.map Prod.fst).Nodup) (hmem : (k, vs) ∈ m)
    (hk : k ≠ "") (hvs : vs ≠ []) :
    headerValues (applyCustomHeaders h m) k = headerValues h k ++ vs := by
  induction m generalizing h with
  | nil => cases hmem
  | cons p ps ih =>
      simp only [List.map_cons, List.nodup_cons] at hnd
      rcases List.mem_cons.mp hmem with heq | htail
      · subst heq
        rw [applyCustomHeaders_cons]
        have hcover : ∀ q ∈ ps, q.1 ≠ k := by
          intro q hq hqe
          exact hnd.1 (List.mem_map.mpr ⟨q, hq, hqe⟩)
        rw [applyCustomHeaders_ne_keys ps _ k hcover, headerValues_setHeaderIfExists]
        simp [hk, hvs]
      · have hp1 : p.1 ≠ k := by
          intro hpe
          exact hnd.1 (List.mem_map.mpr ⟨(k, vs), htail, hpe.symm ▸ rfl⟩)
        rw [applyCustomHeaders_cons,
          ih (setHeaderIfExists h p.1 p.2) hnd.2 htail,
          headerValues_setHeaderIfExists]
        simp [hp1]

/-! Lemmas about the Build pipeline. -/

theorem buildStep1_ok_header (parseURL : ParseURLFn) (hrb : HttpRequestBuilder)
    (req0 : GoRequest) (h : buildStep1 parseURL hrb = .ok req0) :
    req0.header = baseHeader hrb := by
  unfold buildStep1 at h
  unfold baseHeader
  cases hrq : hrb.hr.request with
  | none =>
      rw [hrq] at h
      cases hv : validateRequiredRequestFields hrb.ri with
      | some e => rw [hv] at h; cases h
      | none =>
          rw [hv] at h
          cases hp : parseURL (buildEndpoint hrb.ri.scheme hrb.ri.host hrb.ri.pathElements) with
          | error e => rw [hp] at h; cases h
          | ok p =>
              rw [hp] at h
              cases h
              rfl
  | some req =>
      rw [hrq] at h
      cases hb : hrb.ri.body with
      | some b => rw [hb] at h; cases h; rfl
      | none => rw [hb] at h; cases h; rfl

theorem buildStep1_error_facets (parseURL : ParseURLFn) (hrb : HttpRequestBuilder)
    (e : RequestErrorImpl) (h : buildStep1 parseURL hrb = .error e) :
    e.isRequestBuildErr = true ∧ e.statusCode = 0 ∧
      e.isConnectionErr = false ∧ e.isTimeout = false := by
  unfold buildStep1 at h
  cases hrq : hrb.hr.request with
  | none =>
      rw [hrq] at h
      cases hv : validateRequiredRequestFields hrb.ri with
      | some e0 =>
          rw [hv] at h
          cases h
          exact ⟨rfl, rfl, rfl, rfl⟩
      | none =>
          rw [hv] at h
          cases hp : parseURL (buildEndpoint hrb.ri.scheme hrb.ri.host hrb.ri.pathElements) with
          | error e0 =>
              rw [hp] at h
              cases h
              exact ⟨rfl, rfl, rfl, rfl⟩
          | ok p => rw [hp] at h; cases h
  | some req =>
      rw [hrq] at h
      cases hb : hrb.ri.body with
      | some b => rw [hb] at h; cases h
      | none => rw [hb] at h; cases h

theorem build_ok_request (parseURL : ParseURLFn) (parseRequestURI : ParseRequestURIFn)
    (hrb : HttpRequestBuilder) (hr : HttpRequest)
    (hb : build parseURL parseRequestURI hrb = .ok hr) :
    ∃ req0, buildStep1 parseURL hrb = .ok req0 ∧
      ∃ r, hr.request = some r ∧
        r.header = applyCustomHeaders req0.header
          (match hrb.ri.header with | some m => m | none => []) := by
  unfold build at hb
  cases h1 : buildStep1 parseURL hrb with
  | error e => rw [h1] at hb; cases hb
  | ok req0 =>
      rw [h1] at hb
      dsimp only at hb
      refine ⟨req0, rfl, ?_⟩
      by_cases hpe : hrb.ri.pathElements = []
      · rw [if_pos hpe] at hb
        cases hb
        refine ⟨_, rfl, ?_⟩
        cases hq : hrb.ri.queryParams <;> simp [buildFinish, hq]
      · rw [if_neg hpe] at hb
        cases h2 : parseRequestURI (GoRequest.urlPath { req0 with close := true }) with
        | error e => rw [h2] at hb; cases hb
        | ok u =>
            rw [h2] at hb
            cases hb
            refine ⟨_, rfl, ?_⟩
            cases hq : hrb.ri.queryParams <;> simp [buildFinish, hq]

theorem build_error_facets (parseURL : ParseURLFn) (parseRequestURI : ParseRequestURIFn)
    (hrb : HttpRequestBuilder) (e : RequestErrorImpl)
    (hb : build parseURL parseRequestURI hrb = .error e) :
    e.isRequestBuildErr = true ∧ e.statusCode = 0 ∧
      e.isConnectionErr = false ∧ e.isTimeout = false := by
  unfold build at hb
  cases h1 : buildStep1 parseURL hrb with
  | error e0 =>
      rw [h1] at hb
      cases hb
      exact buildStep1_error_facets parseURL hrb e h1
  | ok req0 =>
      rw [h1] at hb
      dsimp only at hb
      by_cases hpe : hrb.ri.pathElements = []
      · rw [if_pos hpe] at hb; cases hb
      · rw [if_neg hpe] at hb
        cases h2 : parseRequestURI (GoRequest.urlPath { req0 with close := true }) with
        | error e0 =>
            rw [h2] at hb
            cases hb
            exact ⟨rfl, rfl, rfl, rfl⟩
        | ok u => rw [h2] at hb; cases hb

/-! Endpoint builder lemmas and the claim theorems. -/

theorem string_data_append (s t : String) : (s ++ t).data = s.data ++ t.data := rfl

/-- One /%s directive per path element, as the format construction loop
appends them. -/
def fmtRep : Nat → List Char
  | 0 => []
  | n + 1 => '/' :: '%' :: 's' :: fmtRep n

/-- The intended output of the directives: each operand behind a slash. -/
def outRep : List String → List Char
  | [] => []
  | a :: as => '/' :: (a.data ++ outRep as)

theorem urlFormat_data (ps : List String) (a : String) :
    (ps.foldl (fun acc _ => acc ++ "/%s") a).data = a.data ++ fmtRep ps.length := by
  induction ps generalizing a with
  | nil => simp [fmtRep]
  | cons p ps ih =>
      simp only [List.foldl_cons, List.length_cons]
      rw [ih, fmtRep, string_data_append]
      simp [show ("/%s" : String).data = ['/', '%', 's'] from rfl]

theorem goScan_literal_append (f1 rest : List Char) (args : List String)
    (h : '%' ∉ f1) :
    goScan .literal (f1 ++ rest) args = f1 ++ goScan .literal rest args := by
  induction f1 with
  | nil => simp
  | cons c cs ih =>
      have hc : ¬ c = '%' := fun hcc => h (hcc ▸ List.mem_cons_self c cs)
      simp only [List.cons_append, goScan, if_neg hc]
      congr 1
      exact ih (fun hm => h (List.mem_cons_of_mem c hm))

theorem goScan_slashPS (rest : List Char) (a : String) (args : List String) :
    goScan .literal ('/' :: '%' :: 's' :: rest) (a :: args)
      = '/' :: (a.data ++ goScan .literal rest args) := by
  simp [goScan, verbOut, fmtS, truncateString, padList]

theorem goScan_fmtRep (xs : List String) :
    goScan .literal (fmtRep xs.length) xs = outRep xs := by
  induction xs with
  | nil => simp [fmtRep, outRep, goScan, goExtra]
  | cons a as ih =>
      simp only [List.length_cons, fmtRep]
      rw [goScan_slashPS, ih]
      simp [outRep]

theorem outRep_concatAll (ps : List String) :
    outRep (ps.map pathEscape) = (concatAll (ps.map fun e => "/" ++ pathEscape e)).data := by
  induction ps with
  | nil => simp [outRep, concatAll]
  | cons p ps ih =>
      simp only [List.map_cons, outRep, concatAll]
      rw [ih, string_data_append, string_data_append]
      simp [show ("/" : String).data = ['/'] from rfl]

/-- The concrete builder of the endpoint scenario: scheme https, host
example.com, path elements a and 1, one query parameter q=1. -/
def scenarioBuilder : HttpRequestBuilder :=
  { hr := RequestBuilder.hr,
    ri := { scheme := "https", host := "example.com", pathElements := ["a", "1"],
            queryParams := some [("q", ["1"])] } }

/-- C8 counterexample: with scheme a b, escaping produces a%20b, and the
Sprintf format-string interpolation of builder.go parses the %20b as a
directive (width 20, verb b): the built endpoint starts with the bad-verb
notation, consumes the path operand there, and is not the escape-and-join
string the claim asserts for every input. -/
theorem buildEndpoint_sprintf_counterexample :
    buildEndpoint "a b" "example.com" ["p"]
        ≠ specEndpoint "a b" "example.com" ["p"] ∧
    (buildEndpoint "a b" "example.com" ["p"]).data.take 12 = "a%!b(string=".data ∧
    specEndpoint "a b" "example.com" ["p"] = "a%20b://example.com/p" :=
  ⟨by decide, by decide, by decide⟩

/-- C8 (amended): buildEndpoint is a total pure function and returns the
escape-and-join of the specification whenever the escaped scheme and escaped
host contain no percent sign (in particular for all components that escaping
leaves unchanged); when escaping introduces a percent sign, that sign stands
in the Sprintf format string and is parsed as a directive instead.  The
scenario build for scheme https, host example.com, path [a, 1] and query q=1
still yields exactly the URL https://example.com/a/1?q=1. -/
theorem buildEndpoint_escapeJoin :
    (∀ (scheme host : String) (ps : List String),
      '%' ∉ (pathEscape scheme).data → '%' ∉ (pathEscape host).data →
      buildEndpoint scheme host ps = specEndpoint scheme host ps) ∧
    (build simpleParseURL simpleParseRequestURI scenarioBuilder).toOption.bind
        (fun hr => hr.request.map urlString) = some "https://example.com/a/1?q=1" := by
  constructor
  · intro scheme host ps h1 h2
    have hmem : '%' ∉ (pathEscape scheme ++ "://" ++ pathEscape host).data := by
      simp only [string_data_append, List.mem_append]
      intro hor
      rcases hor with (hs | hmid) | hh
      · exact h1 hs
      · exact absurd hmid (by decide)
      · exact h2 hh
    unfold buildEndpoint goSprintf
    dsimp only
    rw [urlFormat_data]
    rw [show ps.length = (ps.map pathEscape).length by simp]
    rw [goScan_literal_append _ _ _ hmem, goScan_fmtRep, outRep_concatAll]
    show String.mk ((pathEscape scheme ++ "://" ++ pathEscape host).data
      ++ (concatAll (ps.map fun e => "/" ++ pathEscape e)).data) = _
    rw [← string_data_append]
    rfl
  · rfl

/-- Witness for the amended C8 theorem at the scenario components, whose
escapes contain no percent sign. -/
theorem buildEndpoint_escapeJoin_witness :
    buildEndpoint "https" "example.com" ["a", "1"]
      = specEndpoint "https" "example.com" ["a", "1"] :=
  buildEndpoint_escapeJoin.1 "https" "example.com" ["a", "1"] (by decide) (by decide)

/-- C5 counterexample: newHttpClient keeps a zero timeout as zero (meaning no
client timeout), it does not substitute the 60 second default. -/
theorem newHttpClient_zero_timeout_counterexample :
    (newHttpClient 0).clientTimeout = 0 ∧
    (newHttpClient 0).clientTimeout ≠ defaultTimeoutDuration := by
  exact ⟨rfl, by decide⟩

/-- C5 amended: NewHttpClient substitutes the 60 second default for every
zero or negative timeout, but the per-request newHttpClient substitutes it
only for negative timeouts and keeps zero as no timeout; positive timeouts
are kept by both. -/
theorem client_timeout_defaulting : ∀ (t : Int) (loggingEnabled : Bool),
    (t ≤ 0 → (NewHttpClient loggingEnabled t).client.clientTimeout = DefaultTimeoutDuration) ∧
    (t < 0 → (newHttpClient t).clientTimeout = defaultTimeoutDuration) ∧
    ((newHttpClient 0).clientTimeout = 0) ∧
    (0 < t → (NewHttpClient loggingEnabled t).client.clientTimeout = t ∧
      (newHttpClient t).clientTimeout = t) := by
  intro t le
  refine ⟨?_, ?_, rfl, ?_⟩
  · intro h1
    unfold NewHttpClient
    rw [if_pos h1]
  · intro h2
    unfold newHttpClient
    rw [if_pos h2]
  · intro h3
    constructor
    · unfold NewHttpClient
      rw [if_neg (by omega)]
    · unfold newHttpClient
      rw [if_neg (by omega)]

/-- Witness for the amended C5 theorem at timeout -1 and at timeout 2. -/
theorem client_timeout_defaulting_witness :
    (NewHttpClient false (-1)).client.clientTimeout = DefaultTimeoutDuration ∧
    (newHttpClient (-1)).clientTimeout = defaultTimeoutDuration ∧
    (newHttpClient 2).clientTimeout = 2 :=
  ⟨(client_timeout_defaulting (-1) false).1 (by decide),
   (client_timeout_defaulting (-1) false).2.1 (by decide),
   ((client_timeout_defaulting 2 false).2.2.2 (by decide)).2⟩

/-- The transport of the timeout scenario: every call fails with a
url.Error answering true to Timeout(). -/
def timeoutScenarioTransport : TransportFn :=
  fun _ _ => .error (.urlErr true (GoErr.new "context deadline exceeded"))

/-- C1 counterexample: a doRequest run whose transport fails with a timeout
returns the error built by NewRequestTimeoutError, and that error reports
status code 408 (http.StatusRequestTimeout), not 0. -/
theorem doRequest_timeout_status_counterexample :
    doRequest timeoutScenarioTransport (fun s => .ok s) {} "GET" none none
        false 10000000 =
      .result (some (NewRequestTimeoutError HttpClientErr
        (GoErr.wrap (GoErr.new "context deadline exceeded")
          "Connection Error, Request Timed out"))) ∧
    (NewRequestTimeoutError HttpClientErr
      (GoErr.wrap (GoErr.new "context deadline exceeded")
        "Connection Error, Request Timed out")).GetStatusCode ≠ 0 :=
  ⟨rfl, by decide⟩

/-- C1 amended: on the transport-failure branch of doRequest the returned
error is connection-classified either way, but the reported status code is 0
only for the non-timeout classification; the timeout classification reports
http.StatusRequestTimeout (408). -/
theorem doRequest_transportFailure_statusCode :
    ∀ (ju : JsonUnmarshalFn) (req : GoRequest) (method : String)
      (respRef : Option Target) (loggingEnabled : Bool) (timeout : Int)
      (isTimeout : Bool) (e : GoErr),
    ∃ er, doRequest (fun _ _ => .error (.urlErr isTimeout e)) ju req method none
        respRef loggingEnabled timeout = .result (some er) ∧
      er.GetStatusCode = (if isTimeout then StatusRequestTimeout else 0) ∧
      er.ConnectionError = true ∧ er.Timeout = isTimeout := by
  intro ju req method respRef le t tf e
  cases tf
  · exact ⟨_, rfl, rfl, rfl, rfl⟩
  · exact ⟨_, rfl, rfl, rfl, rfl⟩

/-- C3 counterexample: the value built by NewRequestTimeoutError has two of
the four boolean facets set at once, Timeout and ConnectionError, so exactly
one facet being true fails for the timeout constructor. -/
theorem timeoutError_two_facets :
    (NewRequestTimeoutError HttpClientErr (GoErr.new "t")).Timeout = true ∧
    (NewRequestTimeoutError HttpClientErr (GoErr.new "t")).ConnectionError = true :=
  ⟨rfl, rfl⟩

/-- C3 amended: NewRequestConnectionError, NewRequestBuildError and
NewRequestResponseParseError each set exactly one facet,
NewRequestTimeoutError sets exactly the Timeout and ConnectionError facets,
NewRequestError sets none of them, and on the HTTP-status path of
prepareResponseError every non-parse error carries a status of at least 400,
hence non-zero. -/
theorem requestError_facets : ∀ (tl e : GoErr) (sc : Nat),
    ((NewRequestError tl e sc).Timeout = false ∧
     (NewRequestError tl e sc).ConnectionError = false ∧
     (NewRequestError tl e sc).ResponseParseError = false ∧
     (NewRequestError tl e sc).RequestBuildError = false) ∧
    ((NewRequestTimeoutError tl e).Timeout = true ∧
     (NewRequestTimeoutError tl e).ConnectionError = true ∧
     (NewRequestTimeoutError tl e).ResponseParseError = false ∧
     (NewRequestTimeoutError tl e).RequestBuildError = false) ∧
    ((NewRequestConnectionError tl e).Timeout = false ∧
     (NewRequestConnectionError tl e).ConnectionError = true ∧
     (NewRequestConnectionError tl e).ResponseParseError = false ∧
     (NewRequestConnectionError tl e).RequestBuildError = false) ∧
    ((NewRequestBuildError tl e).Timeout = false ∧
     (NewRequestBuildError tl e).ConnectionError = false ∧
     (NewRequestBuildError tl e).ResponseParseError = false ∧
     (NewRequestBuildError tl e).RequestBuildError = true) ∧
    ((NewRequestResponseParseError tl e).Timeout = false ∧
     (NewRequestResponseParseError tl e).ConnectionError = false ∧
     (NewRequestResponseParseError tl e).ResponseParseError = true ∧
     (NewRequestResponseParseError tl e).RequestBuildError = false) ∧
    (∀ (resp : HttpResponse) (er : RequestErrorImpl),
      prepareResponseError resp = some er → er.ResponseParseError = false →
        400 ≤ er.GetStatusCode) := by
  intro tl e sc
  refine ⟨⟨rfl, rfl, rfl, rfl⟩, ⟨rfl, rfl, rfl, rfl⟩, ⟨rfl, rfl, rfl, rfl⟩,
    ⟨rfl, rfl, rfl, rfl⟩, ⟨rfl, rfl, rfl, rfl⟩, ?_⟩
  intro resp er hpre hfacet
  unfold prepareResponseError at hpre
  by_cases hlt : resp.statusCode < 400
  · rw [if_pos hlt] at hpre
    cases hpre
  · rw [if_neg hlt] at hpre
    cases hbody : getFailedResponseBody resp with
    | error e0 =>
        rw [hbody] at hpre
        cases hpre
        cases hfacet
    | ok msg =>
        rw [hbody] at hpre
        cases hpre
        show 400 ≤ resp.statusCode
        omega

/-- Witness for the amended C3 theorem: the facet equations at concrete
errors and the status bound at a concrete 418 response. -/
theorem requestError_facets_witness :
    (NewRequestConnectionError HttpClientErr (GoErr.new "c")).ConnectionError = true ∧
    400 ≤ (RequestErrorImpl.GetStatusCode
      (NewRequestError (statusTopLevelErr 418) (GoErr.new "teapot") 418)) :=
  ⟨((requestError_facets HttpClientErr (GoErr.new "c") 0).2.2.1).2.1,
   (requestError_facets HttpClientErr (GoErr.new "c") 0).2.2.2.2.2
     { statusCode := 418, body := .ok "teapot" }
     (NewRequestError (statusTopLevelErr 418) (GoErr.new "teapot") 418) rfl rfl⟩

/-- C10: on the transport-failure branch doRequest type-asserts the error to
*url.Error before testing Timeout(): when the dynamic type is a url.Error
the branch returns a classified error and never panics, and for any other
dynamic error type the assertion panics. -/
theorem doRequest_transportFailure_assertion :
    ∀ (ju : JsonUnmarshalFn) (req : GoRequest) (method : String)
      (respRef : Option Target) (loggingEnabled : Bool) (timeout : Int)
      (e : GoErr) (isTimeout : Bool),
    doRequest (fun _ _ => .error (.otherErr e)) ju req method none respRef
      loggingEnabled timeout = .panicked ∧
    doRequest (fun _ _ => .error (.urlErr isTimeout e)) ju req method none respRef
      loggingEnabled timeout ≠ .panicked := by
  intro ju req method respRef le t e tf
  refine ⟨rfl, ?_⟩
  cases tf <;> exact fun h => DoOutcome.noConfusion h

/-- Witness for the C10 theorem at a concrete request and error. -/
theorem doRequest_transportFailure_assertion_witness :
    doRequest (fun _ _ => .error (.otherErr (GoErr.new "x"))) (fun s => .ok s)
      {} "GET" none none false 0 = .panicked ∧
    doRequest (fun _ _ => .error (.urlErr false (GoErr.new "x"))) (fun s => .ok s)
      {} "GET" none none false 0 ≠ .panicked :=
  doRequest_transportFailure_assertion (fun s => .ok s) {} "GET" none false 0
    (GoErr.new "x") false

theorem statusTopLevelErr_eq_spec (code : Nat) :
    statusTopLevelErr code = categoryTopErr (specStatusCategory code) := by
  unfold statusTopLevelErr specStatusCategory
  split_ifs <;> rfl

/-- C2: for every received response the classifier returns no error below
status 400; at or above 400, when the body is readable, it returns exactly
the error whose top-level category is the one named by the fixed spec
mapping, whose carried status code equals the status of the response, and
whose detail message is the literal body text unmodified. -/
theorem prepareResponseError_classification (resp : HttpResponse) (body : String) :
    (resp.statusCode < 400 → prepareResponseError resp = none) ∧
    (400 ≤ resp.statusCode → resp.body = .ok body →
      ∃ er, prepareResponseError resp = some er ∧
        er.GetTopLevelError = categoryTopErr (specStatusCategory resp.statusCode) ∧
        er.GetStatusCode = resp.statusCode ∧ er.GetMessage = body) := by
  constructor
  · intro hlt
    unfold prepareResponseError
    rw [if_pos hlt]
  · intro hge hbody
    unfold prepareResponseError
    rw [if_neg (by omega)]
    have hx : getFailedResponseBody resp = .ok body := by
      unfold getFailedResponseBody
      rw [hbody]
    rw [hx]
    exact ⟨_, rfl, statusTopLevelErr_eq_spec resp.statusCode, rfl, rfl⟩

/-- Witness for the C2 theorem at the scenario response 401 with body
bad creds and at a 200 response. -/
theorem prepareResponseError_classification_witness :
    (prepareResponseError { statusCode := 200, body := .ok "ok body" } = none) ∧
    ∃ er, prepareResponseError { statusCode := 401, body := .ok "bad creds" } = some er ∧
      er.GetTopLevelError = categoryTopErr (specStatusCategory 401) ∧
      er.GetStatusCode = 401 ∧ er.GetMessage = "bad creds" :=
  ⟨(prepareResponseError_classification { statusCode := 200, body := .ok "ok body" } "ok body").1
      (by decide),
   (prepareResponseError_classification { statusCode := 401, body := .ok "bad creds" }
      "bad creds").2 (by decide) rfl⟩

theorem setHeaderIfNotSetAlready_ctxDeadline (req : GoRequest) (k v : String) :
    (setHeaderIfNotSetAlready req k v).ctxDeadline = req.ctxDeadline := by
  unfold setHeaderIfNotSetAlready
  split_ifs <;> rfl

theorem applyUniversalHeaders_ctxDeadline (req : GoRequest) (method : String) :
    (applyUniversalHeaders req method).ctxDeadline = req.ctxDeadline := by
  unfold applyUniversalHeaders
  dsimp only
  split_ifs <;> simp [setHeaderIfNotSetAlready_ctxDeadline]

/-- C4: in HttpClient.do with per-call timeout t and client-level timeout T
(the raw stored timeout of the client), the request handed to the transport
carries a derived context deadline exactly when t is positive and either T
is non-positive or t is strictly smaller than T; in every other case the
supplied per-call timeout has no effect and the request keeps its ambient
context. -/
theorem clientDo_context_resolution (hc : HttpClient) (req : GoRequest)
    (method : String) (t : Int) (h : req.ctxDeadline = none) :
    ∃ r, hc.doPrepare req method none t = .ok r ∧
      (0 < t ∧ (hc.timeout ≤ 0 ∨ t < hc.timeout) → r.ctxDeadline = some t) ∧
      (¬ (0 < t ∧ (hc.timeout ≤ 0 ∨ t < hc.timeout)) → r.ctxDeadline = none) := by
  refine ⟨_, rfl, ?_, ?_⟩
  · intro hcond
    show GoRequest.ctxDeadline (if 0 < t then _ else _) = some t
    rw [if_pos hcond.1, if_pos hcond.2]
  · intro hcond
    show GoRequest.ctxDeadline (if 0 < t then _ else _) = none
    by_cases h1 : 0 < t
    · have h2 : ¬ (hc.timeout ≤ 0 ∨ t < hc.timeout) := fun hx => hcond ⟨h1, hx⟩
      rw [if_pos h1, if_neg h2, applyUniversalHeaders_ctxDeadline, h]
    · rw [if_neg h1, applyUniversalHeaders_ctxDeadline, h]

/-- Witness for the C4 theorem: client timeout 5 seconds, request timeout 1
second, fresh request without a deadline. -/
theorem clientDo_context_resolution_witness :
    ∃ r, (NewHttpClient false 5000000000).doPrepare {} "GET" none 1000000000 = .ok r ∧
      (0 < (1000000000 : Int) ∧
        ((NewHttpClient false 5000000000).timeout ≤ 0 ∨
          (1000000000 : Int) < (NewHttpClient false 5000000000).timeout) →
        r.ctxDeadline = some 1000000000) ∧
      (¬ (0 < (1000000000 : Int) ∧
        ((NewHttpClient false 5000000000).timeout ≤ 0 ∨
          (1000000000 : Int) < (NewHttpClient false 5000000000).timeout)) →
        r.ctxDeadline = none) :=
  clientDo_context_resolution (NewHttpClient false 5000000000) {} "GET" 1000000000 rfl

/-- C6: the byte-slice branch of unmarshalReader returns no error but leaves
the caller-visible target unchanged for every drained stream, because the Go
assignment v = toByte rebinds the local interface parameter only; at the
failing input (stream abc, empty byte-slice target) the buffered bytes are
therefore never assigned to the target.  The structured-target branch indeed
reports a decode failure wrapping the parse error. -/
theorem unmarshalReader_byteSlice_noop :
    (∀ (ju : JsonUnmarshalFn) (bytes content : String),
      unmarshalReader ju (.ok bytes) (.byteSlice content) = (none, .byteSlice content)) ∧
    (unmarshalReader (fun s => .ok s) (.ok "abc") (.byteSlice "") = (none, .byteSlice "") ∧
      (Target.byteSlice "" : Target) ≠ .byteSlice "abc") ∧
    (∀ (ju : JsonUnmarshalFn) (bytes : String) (v : Option String) (e : GoErr),
      ju bytes = .error e →
        unmarshalReader ju (.ok bytes) (.jsonRef v) =
          (some (GoErr.wrap e "Failed unmarshal body"), .jsonRef v)) := by
  refine ⟨fun ju bytes content => rfl, ⟨rfl, by decide⟩, ?_⟩
  intro ju bytes v e hj
  unfold unmarshalReader
  dsimp only
  rw [hj]

/-- Witness for the C6 theorem at the failing input. -/
theorem unmarshalReader_byteSlice_noop_witness :
    unmarshalReader (fun s => .error (GoErr.new "invalid character")) (.ok "abc")
        (.byteSlice "xy") = (none, .byteSlice "xy") ∧
    unmarshalReader (fun s => .error (GoErr.new "invalid character")) (.ok "abc")
        (.jsonRef none) =
      (some (GoErr.wrap (GoErr.new "invalid character") "Failed unmarshal body"),
        .jsonRef none) :=
  ⟨unmarshalReader_byteSlice_noop.1 (fun s => .error (GoErr.new "invalid character"))
      "abc" "xy",
   unmarshalReader_byteSlice_noop.2.2 (fun s => .error (GoErr.new "invalid character"))
      "abc" none (GoErr.new "invalid character") rfl⟩

/-- C9: with no pre-existing transport request, Build fails with a
build-classified error whenever the scheme or the host is empty, and every
error Build returns is build-classified, carries status code 0 and is
neither connection-classified nor timeout-classified; the whole Build
pipeline is a pure function with no transport call in it. -/
theorem build_failure_classification (parseURL : ParseURLFn)
    (parseRequestURI : ParseRequestURIFn) (hrb : HttpRequestBuilder) :
    (hrb.hr.request = none → hrb.ri.scheme = "" ∨ hrb.ri.host = "" →
      ∃ e, build parseURL parseRequestURI hrb = .error e) ∧
    (∀ e, build parseURL parseRequestURI hrb = .error e →
      e.RequestBuildError = true ∧ e.GetStatusCode = 0 ∧
        e.ConnectionError = false ∧ e.Timeout = false) := by
  constructor
  · intro hreq hsh
    have hv : ∃ e0, validateRequiredRequestFields hrb.ri = some e0 := by
      unfold validateRequiredRequestFields
      rcases hsh with hs | hh
      · rw [if_pos hs]
        exact ⟨_, rfl⟩
      · by_cases hs : hrb.ri.scheme = ""
        · rw [if_pos hs]
          exact ⟨_, rfl⟩
        · rw [if_neg hs, if_pos hh]
          exact ⟨_, rfl⟩
    obtain ⟨e0, hv⟩ := hv
    refine ⟨NewRequestBuildError InvalidRequestErr
      (GoErr.wrap e0 "Invalid request fields"), ?_⟩
    simp [build, buildStep1, hreq, hv]
  · intro e hb
    exact build_error_facets parseURL parseRequestURI hrb e hb

/-- The builder of the C9 witness: empty scheme, no pre-existing request. -/
def emptySchemeBuilder : HttpRequestBuilder :=
  { hr := {}, ri := { host := "example.com" } }

/-- Witness for the C9 theorem at a builder with an empty scheme. -/
theorem build_failure_classification_witness :
    (∃ e, build simpleParseURL simpleParseRequestURI emptySchemeBuilder = .error e) ∧
    ((NewRequestBuildError InvalidRequestErr
        (GoErr.wrap (GoErr.new "Empty request scheme") "Invalid request fields")).RequestBuildError = true ∧
      (NewRequestBuildError InvalidRequestErr
        (GoErr.wrap (GoErr.new "Empty request scheme") "Invalid request fields")).GetStatusCode = 0 ∧
      (NewRequestBuildError InvalidRequestErr
        (GoErr.wrap (GoErr.new "Empty request scheme") "Invalid request fields")).ConnectionError = false ∧
      (NewRequestBuildError InvalidRequestErr
        (GoErr.wrap (GoErr.new "Empty request scheme") "Invalid request fields")).Timeout = false) :=
  ⟨(build_failure_classification simpleParseURL simpleParseRequestURI
      emptySchemeBuilder).1 rfl (Or.inl rfl),
   (build_failure_classification simpleParseURL simpleParseRequestURI
      emptySchemeBuilder).2 _ rfl⟩

/-- C7: for every header mapping supplied to the builder in which some key
appears with a value list (a Go map, so keys are unique), the built request
holds exactly those values under that key in their original order whenever
the underlying request had none there, values already present under any key
of the underlying request are only appended to and never overwritten, and
entries with an empty key or an empty value list are skipped silently. -/
theorem build_header_application :
    (∀ (parseURL : ParseURLFn) (parseRequestURI : ParseRequestURIFn)
       (hrb : HttpRequestBuilder) (m : Header) (hr : HttpRequest) (r : GoRequest)
       (k : String) (vs : List String),
       hrb.ri.header = some m →
       build parseURL parseRequestURI hrb = .ok hr →
       hr.request = some r →
       (((m.map Prod.fst).Nodup → (k, vs) ∈ m → k ≠ "" → vs ≠ [] →
         headerValues (baseHeader hrb) k = [] →
         headerValues r.header k = vs) ∧
        (∀ k', headerValues (baseHeader hrb) k' <+: headerValues r.header k'))) ∧
    (∀ (h : Header) (k : String) (vs : List String),
       setHeaderIfExists h "" vs = h ∧ setHeaderIfExists h k [] = h) := by
  constructor
  · intro pu pru hrb m hr r k vs hm hb hreq
    obtain ⟨req0, h1, r', hr', hdr⟩ := build_ok_request pu pru hrb hr hb
    rw [hreq] at hr'
    obtain rfl := Option.some.inj hr'
    have hbase := buildStep1_ok_header pu hrb req0 h1
    rw [hm] at hdr
    dsimp only at hdr
    rw [hbase] at hdr
    constructor
    · intro hnd hmem hk hvs hempty
      rw [hdr, applyCustomHeaders_values_unique m _ k vs hnd hmem hk hvs, hempty]
      simp
    · intro k'
      rw [hdr]
      exact applyCustomHeaders_prefix m _ k'
  · intro h k vs
    constructor
    · simp [setHeaderIfExists]
    · simp [setHeaderIfExists]

/-- The builder of the C7 witness: a pre-prepared request already holding an
unrelated header, extended with a two-valued Cookie header. -/
def headerScenarioBuilder : HttpRequestBuilder :=
  { hr := { request := some { header := [("X-Base", ["b0"])] } },
    ri := { header := some [("Cookie", ["c1", "c2"])] } }

/-- The transport request the C7 witness build produces. -/
def headerScenarioResult : GoRequest :=
  { header := [("X-Base", ["b0"]), ("Cookie", ["c1", "c2"])], close := true }

/-- Witness for the C7 theorem: the two Cookie values arrive in order and
the pre-existing unrelated value is preserved as a prefix. -/
theorem build_header_application_witness :
    headerValues headerScenarioResult.header "Cookie" = ["c1", "c2"] ∧
    (headerValues (baseHeader headerScenarioBuilder) "X-Base" <+:
      headerValues headerScenarioResult.header "X-Base") :=
  ⟨(build_header_application.1 simpleParseURL simpleParseRequestURI
      headerScenarioBuilder [("Cookie", ["c1", "c2"])]
      { request := some headerScenarioResult } headerScenarioResult
      "Cookie" ["c1", "c2"] rfl rfl rfl).1
      (by decide) (by decide) (by decide) (by decide) rfl,
   (build_header_application.1 simpleParseURL simpleParseRequestURI
      headerScenarioBuilder [("Cookie", ["c1", "c2"])]
      { request := some headerScenarioResult } headerScenarioResult
      "Cookie" ["c1", "c2"] rfl rfl rfl).2 "X-Base"⟩

end RestClient
